import Mathlib

/-!
Verification of `regression.py`, a small regression-test harness.

The harness iterates a fixed list of test cases, each a pair of a command
(argument list) and an expected golden-file name.  For each case it runs
`go run <cmd>` as a child process, checks the exit code, the captured
standard error, and compares the whitespace-stripped standard output with
the whitespace-stripped content of `rdata/<expected>`, printing one
diagnostic line on failure; finally it prints a one-line summary.

Shallow embedding: the external world is modelled by two functions, a
`Runner` mapping a full command line to an optional `RunResult` (`none`
means the child process could not be launched, which in the Python source
raises an uncaught exception out of `test`), and a `FileSystem` mapping a
filename to its optional content (`none` means `open` raises
`FileNotFoundError`, which `test` catches).  Each call of `test` returns a
`TestOutcome` recording the spawned commands, the attempted file reads,
the printed diagnostic lines, and the result: `some 1` for pass, `some 0`
for a locally-handled failure, `none` for a propagating launch error.
Python's `str.strip` is modelled by `strip`, dropping leading and trailing
whitespace characters from the character list of a string.
-/

/-- Result of running a child process: exit code, captured standard error
and captured standard output (`subprocess.run` with `capture_output`). -/
structure RunResult where
  returncode : Int
  stderr : String
  stdout : String
  deriving Repr, DecidableEq

/-- The process-spawning environment: `none` models a launch failure
(`subprocess.run` raising, e.g. the `go` toolchain is missing). -/
abbrev Runner := List String → Option RunResult

/-- The file system: `none` models `FileNotFoundError` on `open`. -/
abbrev FileSystem := String → Option String

/-- Everything one call of `test` does: which commands it spawned, which
files it tried to open, which lines it printed, and its value — `some 1`
(pass), `some 0` (failure) or `none` (an exception propagated). -/
structure TestOutcome where
  spawnCalls : List (List String)
  fileReads : List String
  printed : List String
  result : Option Nat
  deriving Repr, DecidableEq

/-- Python's `str.strip` on the underlying character list: drop leading
and trailing whitespace. -/
def pyStrip (l : List Char) : List Char :=
  ((l.dropWhile Char.isWhitespace).reverse.dropWhile Char.isWhitespace).reverse

/-- Python's `str.strip` on strings (`reply.stdout.strip()`,
`file.read().strip()`). -/
def strip (s : String) : String :=
  ⟨pyStrip s.data⟩

/-- The full command line, `['go', 'run'] + cmd` in `test`. -/
def fullCmd (cmd0 : List String) : List String :=
  ["go", "run"] ++ cmd0

/-- The joined command string, `' '.join(cmd)` in `test`. -/
def cmdString (cmd : List String) : String :=
  String.intercalate " " cmd

/-- The golden-file path, `f'rdata/\x7bexpected\x7d'` in `test`. -/
def goldenPath (expected : String) : String :=
  "rdata/" ++ expected

/-- Diagnostic for a non-zero exit code. -/
def badReturnLine (cmdS : String) (rc : Int) : String :=
  "FAIL bad return code \"" ++ cmdS ++ "\": " ++ toString rc

/-- Diagnostic for non-empty captured stderr. -/
def stderrLine (cmdS err : String) : String :=
  "FAIL stderr \"" ++ cmdS ++ "\": " ++ err

/-- Diagnostic for a missing golden file. -/
def missingLine (filename : String) : String :=
  "FAIL missing: " ++ filename

/-- Diagnostic for a stripped-output mismatch. -/
def mismatchLine (filename : String) : String :=
  "FAIL stdout != " ++ filename

/-- Per-case check `test(cmd, expected)` of `regression.py`:
prepend `go run`, spawn the process; non-zero exit code, non-empty
stderr, missing golden file, or stripped-output mismatch each print one
diagnostic and yield `0`; otherwise yield `1`.  A launch failure
(`Runner` returns `none`) escapes as `result = none` before anything is
printed or read. -/
def test (runner : Runner) (fs : FileSystem) (cmd0 : List String)
    (expected : String) : TestOutcome :=
  match runner (fullCmd cmd0) with
  | none => ⟨[fullCmd cmd0], [], [], none⟩
  | some reply =>
    if reply.returncode ≠ 0 then
      ⟨[fullCmd cmd0], [],
       [badReturnLine (cmdString (fullCmd cmd0)) reply.returncode], some 0⟩
    else if reply.stderr ≠ "" then
      ⟨[fullCmd cmd0], [],
       [stderrLine (cmdString (fullCmd cmd0)) reply.stderr], some 0⟩
    else
      match fs (goldenPath expected) with
      | none =>
        ⟨[fullCmd cmd0], [goldenPath expected],
         [missingLine (goldenPath expected)], some 0⟩
      | some content =>
        if strip reply.stdout ≠ strip content then
          ⟨[fullCmd cmd0], [goldenPath expected],
           [mismatchLine (goldenPath expected)], some 0⟩
        else
          ⟨[fullCmd cmd0], [goldenPath expected], [], some 1⟩

/-- The loop body of `main`: `total += 1; ok += test(cmd, expected)` over
the remaining cases, accumulating printed lines; the final `Bool` is
`true` when a launch failure aborted the run (the Python exception kills
the process before the summary is printed). -/
def runLoop (runner : Runner) (fs : FileSystem) :
    List (List String × String) → Nat → Nat → List String →
      Nat × Nat × List String × Bool
  | [], total, ok, outs => (total, ok, outs, false)
  | (cmd, expected) :: rest, total, ok, outs =>
    match (test runner fs cmd expected).result with
    | none => (total + 1, ok, outs ++ (test runner fs cmd expected).printed, true)
    | some r =>
      runLoop runner fs rest (total + 1) (ok + r)
        (outs ++ (test runner fs cmd expected).printed)

/-- Summary line when some case failed. -/
def failSummary (ok total : Nat) : String :=
  "FAIL " ++ toString ok ++ "/" ++ toString total

/-- Summary line when every case passed. -/
def okSummary (total : Nat) : String :=
  "All " ++ toString total ++ " OK"

/-- The whole of `main` over an arbitrary case list: run every case, then
print the summary line (`FAIL {ok}/{total}` when `total != ok`, else
`All {total} OK`) — unless a launch failure aborted the run first. -/
def runAll (runner : Runner) (fs : FileSystem)
    (cs : List (List String × String)) : Nat × Nat × List String × Bool :=
  match runLoop runner fs cs 0 0 [] with
  | (total, ok, outs, true) => (total, ok, outs, true)
  | (total, ok, outs, false) =>
    (total, ok,
     outs ++ [if total ≠ ok then failSummary ok total else okSummary total],
     false)

/-- The fixed case list of `main` in `regression.py`. -/
def cases : List (List String × String) :=
  [ (["eg/eg1/eg1.go"], "eg1.txt"),
    (["eg/eg1/eg1.go", "-h"], "eg1.hlp"),
    (["eg/eg2/eg2.go"], "eg2.txt"),
    (["eg/eg2/eg2.go", "-h"], "eg2.hlp"),
    (["eg/subcommands/subcommands.go", "-h"], "subcommands.hlp"),
    (["eg/subcommands/subcommands.go", "-h", "c"], "subcommands-c.hlp"),
    (["eg/subcommands/subcommands.go", "-h", "l"], "subcommands-l.hlp"),
    (["eg/subcommands/subcommands.go", "-h", "f"], "subcommands-f.hlp") ]

/-- Entry point `main` of `regression.py` against a given environment
(Lean reserves the name `main` for IO entry points, hence the prime). -/
def main' (runner : Runner) (fs : FileSystem) : Nat × Nat × List String × Bool :=
  runAll runner fs cases

/-- The spec's per-case failure condition: non-zero exit code, or
non-empty stderr, or missing golden file, or stripped-output mismatch
(stated from the spec's words, to be compared with `test`). -/
def specCaseFails (reply : RunResult) (golden : Option String) : Prop :=
  reply.returncode ≠ 0 ∨ reply.stderr ≠ "" ∨ golden = none ∨
    ∃ content, golden = some content ∧ strip reply.stdout ≠ strip content

example :
    test (fun _ => some ⟨0, "", "hello\n"⟩) (fun _ => some "hello")
      ["eg/eg1/eg1.go"] "eg1.txt" =
    ⟨[["go", "run", "eg/eg1/eg1.go"]], ["rdata/eg1.txt"], [], some 1⟩ := by
  decide

example :
    test (fun _ => some ⟨1, "", "hello"⟩) (fun _ => some "hello") ["p"] "e" =
    ⟨[["go", "run", "p"]], [], ["FAIL bad return code \"go run p\": 1"],
     some 0⟩ := by
  decide

example :
    runAll (fun _ => some ⟨0, "", "x"⟩) (fun _ => some "x") [(["a"], "b")] =
    (1, 1, ["All 1 OK"], false) := by
  decide

/-- Unfolding equation for `test` when the child process cannot be
launched: the command was attempted once, nothing was read or printed,
and the exception propagates. -/
theorem test_launch_fail (runner : Runner) (fs : FileSystem)
    (cmd0 : List String) (expected : String)
    (h : runner (fullCmd cmd0) = none) :
    test runner fs cmd0 expected = ⟨[fullCmd cmd0], [], [], none⟩ := by
  unfold test
  rw [h]

/-- Unfolding equation for `test` when the child process was launched and
produced `reply`. -/
theorem test_launch_ok (runner : Runner) (fs : FileSystem)
    (cmd0 : List String) (expected : String) (reply : RunResult)
    (h : runner (fullCmd cmd0) = some reply) :
    test runner fs cmd0 expected =
      if reply.returncode ≠ 0 then
        ⟨[fullCmd cmd0], [],
         [badReturnLine (cmdString (fullCmd cmd0)) reply.returncode], some 0⟩
      else if reply.stderr ≠ "" then
        ⟨[fullCmd cmd0], [],
         [stderrLine (cmdString (fullCmd cmd0)) reply.stderr], some 0⟩
      else
        match fs (goldenPath expected) with
        | none =>
          ⟨[fullCmd cmd0], [goldenPath expected],
           [missingLine (goldenPath expected)], some 0⟩
        | some content =>
          if strip reply.stdout ≠ strip content then
            ⟨[fullCmd cmd0], [goldenPath expected],
             [mismatchLine (goldenPath expected)], some 0⟩
          else
            ⟨[fullCmd cmd0], [goldenPath expected], [], some 1⟩ := by
  unfold test
  rw [h]

/-- A fully passing case: process launched, exit code zero, empty stderr,
golden file present, stripped outputs equal. -/
theorem test_pass_of (runner : Runner) (fs : FileSystem) (cmd0 : List String)
    (expected : String) (reply : RunResult) (content : String)
    (h : runner (fullCmd cmd0) = some reply) (h0 : reply.returncode = 0)
    (he : reply.stderr = "") (hg : fs (goldenPath expected) = some content)
    (hs : strip reply.stdout = strip content) :
    test runner fs cmd0 expected =
      ⟨[fullCmd cmd0], [goldenPath expected], [], some 1⟩ := by
  rw [test_launch_ok runner fs cmd0 expected reply h]
  simp [h0, he, hg, hs]

/-- The result of `test` is `0` or `1` whenever it is not an escaping
exception. -/
theorem test_result_zero_or_one (runner : Runner) (fs : FileSystem)
    (cmd0 : List String) (expected : String) (r : Nat)
    (h : (test runner fs cmd0 expected).result = some r) : r = 0 ∨ r = 1 := by
  cases hc : runner (fullCmd cmd0) with
  | none => rw [test_launch_fail runner fs cmd0 expected hc] at h; cases h
  | some reply =>
    rw [test_launch_ok runner fs cmd0 expected reply hc] at h
    by_cases h1 : reply.returncode ≠ 0
    · simp [h1] at h; omega
    · by_cases h2 : reply.stderr ≠ ""
      · simp [h1, h2] at h; omega
      · cases hg : fs (goldenPath expected) with
        | none => simp [h1, h2, hg] at h; omega
        | some content =>
          by_cases h3 : strip reply.stdout ≠ strip content
          · simp [h1, h2, hg, h3] at h; omega
          · simp [h1, h2, hg, h3] at h; omega

/-- Dropping leading whitespace ignores an all-whitespace block prepended
in front. -/
theorem dropWhile_ws_append (w s : List Char)
    (hw : ∀ c ∈ w, Char.isWhitespace c) :
    (w ++ s).dropWhile Char.isWhitespace = s.dropWhile Char.isWhitespace := by
  induction w with
  | nil => rfl
  | cons a w ih =>
    have ha : Char.isWhitespace a := hw a (List.mem_cons_self a w)
    simp only [List.cons_append, List.dropWhile_cons, ha, if_true]
    exact ih fun c hc => hw c (List.mem_cons_of_mem a hc)

/-- Stripping is insensitive to all-whitespace padding at either end. -/
theorem pyStrip_pad (s w1 w2 : List Char)
    (h1 : ∀ c ∈ w1, Char.isWhitespace c)
    (h2 : ∀ c ∈ w2, Char.isWhitespace c) :
    pyStrip (w1 ++ s ++ w2) = pyStrip s := by
  unfold pyStrip
  rw [List.append_assoc, dropWhile_ws_append w1 (s ++ w2) h1,
    List.dropWhile_append]
  by_cases hs : (s.dropWhile Char.isWhitespace).isEmpty
  · have hs' : s.dropWhile Char.isWhitespace = [] := by
      rwa [List.isEmpty_iff] at hs
    have hw2 : w2.dropWhile Char.isWhitespace = [] :=
      List.dropWhile_eq_nil_iff.mpr h2
    simp [hs, hs', hw2]
  · rw [if_neg hs, List.reverse_append]
    rw [dropWhile_ws_append w2.reverse _
      fun c hc => h2 c (List.mem_reverse.mp hc)]

/-- String-level version of `pyStrip_pad`. -/
theorem strip_pad (s w1 w2 : String)
    (h1 : ∀ c ∈ w1.data, Char.isWhitespace c)
    (h2 : ∀ c ∈ w2.data, Char.isWhitespace c) :
    strip (w1 ++ s ++ w2) = strip s := by
  unfold strip
  rw [String.data_append (w1 ++ s) w2, String.data_append w1 s]
  rw [pyStrip_pad s.data w1.data w2.data h1 h2]

/-- Claim C1: provided the child process could be launched, the per-case
check `test` returns failure (`some 0`) precisely when the exit code is
non-zero, or the captured stderr is non-empty, or the golden file cannot
be opened, or the stripped stdout differs from the stripped golden
content; when none of these holds it returns success (`some 1`). -/
theorem test_fails_iff_specCaseFails (runner : Runner) (fs : FileSystem)
    (cmd0 : List String) (expected : String) (reply : RunResult)
    (h : runner (fullCmd cmd0) = some reply) :
    ((test runner fs cmd0 expected).result = some 0 ↔
      specCaseFails reply (fs (goldenPath expected)))
    ∧ ((test runner fs cmd0 expected).result = some 1 ↔
      ¬ specCaseFails reply (fs (goldenPath expected))) := by
  rw [test_launch_ok runner fs cmd0 expected reply h]
  unfold specCaseFails
  by_cases h1 : reply.returncode ≠ 0
  · simp [h1]
  · by_cases h2 : reply.stderr ≠ ""
    · simp [h1, h2]
    · cases hg : fs (goldenPath expected) with
      | none => simp [h1, h2, hg]
      | some content =>
        by_cases h3 : strip reply.stdout ≠ strip content
        · simp [h1, h2, hg, h3]
        · simp [h1, h2, hg, h3]

/-- Witness for C1: a concrete case failing with exit code 1. -/
theorem test_fails_iff_specCaseFails_witness :
    (((test (fun _ => some ⟨1, "boom", "x"⟩) (fun _ => some "x") ["p"] "e").result
        = some 0 ↔
      specCaseFails ⟨1, "boom", "x"⟩
        ((fun _ => some "x" : FileSystem) (goldenPath "e")))
     ∧ ((test (fun _ => some ⟨1, "boom", "x"⟩) (fun _ => some "x") ["p"] "e").result
        = some 1 ↔
      ¬ specCaseFails ⟨1, "boom", "x"⟩
        ((fun _ => some "x" : FileSystem) (goldenPath "e")))) :=
  test_fails_iff_specCaseFails (fun _ => some ⟨1, "boom", "x"⟩)
    (fun _ => some "x") ["p"] "e" ⟨1, "boom", "x"⟩ rfl

/-- Claim C5: a case with exit code 0 and empty stderr whose golden file
is absent is a recognized failure, not a crash: `test` prints
`FAIL missing: rdata/<name>`, returns 0, and the loop continues with the
next case (`total` incremented, `ok` unchanged). -/
theorem missing_golden_handled (runner : Runner) (fs : FileSystem)
    (cmd0 : List String) (expected : String) (reply : RunResult)
    (rest : List (List String × String)) (t k : Nat) (outs : List String)
    (h : runner (fullCmd cmd0) = some reply) (h0 : reply.returncode = 0)
    (he : reply.stderr = "") (hm : fs (goldenPath expected) = none) :
    test runner fs cmd0 expected =
      ⟨[fullCmd cmd0], [goldenPath expected],
       [missingLine (goldenPath expected)], some 0⟩
    ∧ runLoop runner fs ((cmd0, expected) :: rest) t k outs =
        runLoop runner fs rest (t + 1) k
          (outs ++ [missingLine (goldenPath expected)]) := by
  have heq : test runner fs cmd0 expected =
      ⟨[fullCmd cmd0], [goldenPath expected],
       [missingLine (goldenPath expected)], some 0⟩ := by
    rw [test_launch_ok runner fs cmd0 expected reply h]
    simp [h0, he, hm]
  refine ⟨heq, ?_⟩
  show (match (test runner fs cmd0 expected).result with
    | none => (t + 1, k, outs ++ (test runner fs cmd0 expected).printed, true)
    | some r =>
      runLoop runner fs rest (t + 1) (k + r)
        (outs ++ (test runner fs cmd0 expected).printed)) = _
  rw [heq]
  simp

/-- Witness for C5: concrete environment with a missing golden file. -/
theorem missing_golden_handled_witness :
    test (fun _ => some ⟨0, "", "out"⟩) (fun _ => none) ["p"] "e" =
      ⟨[fullCmd ["p"]], [goldenPath "e"], [missingLine (goldenPath "e")],
       some 0⟩
    ∧ runLoop (fun _ => some ⟨0, "", "out"⟩) (fun _ => none)
        ((["p"], "e") :: []) 0 0 [] =
      runLoop (fun _ => some ⟨0, "", "out"⟩) (fun _ => none) [] (0 + 1) 0
        ([] ++ [missingLine (goldenPath "e")]) :=
  missing_golden_handled (fun _ => some ⟨0, "", "out"⟩) (fun _ => none)
    ["p"] "e" ⟨0, "", "out"⟩ [] 0 0 [] rfl rfl rfl rfl

/-- Claim C6 (amended): a case whose child process writes anything to
standard error is always counted as a failure; when additionally the exit
code is 0 (the return-code check, which runs first, passes), the
diagnostic line reports the stderr content. -/
theorem stderr_always_fails (runner : Runner) (fs : FileSystem)
    (cmd0 : List String) (expected : String) (reply : RunResult)
    (h : runner (fullCmd cmd0) = some reply) (he : reply.stderr ≠ "") :
    (test runner fs cmd0 expected).result = some 0
    ∧ (reply.returncode = 0 →
        (test runner fs cmd0 expected).printed =
          [stderrLine (cmdString (fullCmd cmd0)) reply.stderr]
        ∧ List.IsInfix reply.stderr.data
            (stderrLine (cmdString (fullCmd cmd0)) reply.stderr).data) := by
  rw [test_launch_ok runner fs cmd0 expected reply h]
  constructor
  · by_cases h1 : reply.returncode ≠ 0
    · simp [h1]
    · simp [h1, he]
  · intro h0
    have h1 : ¬ reply.returncode ≠ 0 := by simp [h0]
    rw [if_neg h1, if_pos he]
    constructor
    · rfl
    · refine ⟨("FAIL stderr \"" ++ cmdString (fullCmd cmd0) ++ "\": ").data,
        [], ?_⟩
      simp [stderrLine, String.data_append]

/-- Witness for C6's amended theorem: exit code 0 with stderr output. -/
theorem stderr_always_fails_witness :
    (test (fun _ => some ⟨0, "warning: x", "hello"⟩) (fun _ => some "hello")
        ["p"] "e").result = some 0
    ∧ ((⟨0, "warning: x", "hello"⟩ : RunResult).returncode = 0 →
        (test (fun _ => some ⟨0, "warning: x", "hello"⟩) (fun _ => some "hello")
            ["p"] "e").printed =
          [stderrLine (cmdString (fullCmd ["p"]))
            (⟨0, "warning: x", "hello"⟩ : RunResult).stderr]
        ∧ List.IsInfix (⟨0, "warning: x", "hello"⟩ : RunResult).stderr.data
            (stderrLine (cmdString (fullCmd ["p"]))
              (⟨0, "warning: x", "hello"⟩ : RunResult).stderr).data) :=
  stderr_always_fails (fun _ => some ⟨0, "warning: x", "hello"⟩)
    (fun _ => some "hello") ["p"] "e" ⟨0, "warning: x", "hello"⟩ rfl
    (by decide)

/-- Counterexample for C6 as stated: a child process that writes
`warning: x` to stderr but exits with code 1 is counted as a failure, yet
its diagnostic line is the bad-return-code line, which does not contain
the stderr content. -/
theorem stderr_diagnostic_counterexample :
    (test (fun _ => some ⟨1, "warning: x", "hello"⟩) (fun _ => some "hello")
        ["p"] "e").result = some 0
    ∧ (test (fun _ => some ⟨1, "warning: x", "hello"⟩) (fun _ => some "hello")
        ["p"] "e").printed = ["FAIL bad return code \"go run p\": 1"]
    ∧ ¬ List.IsInfix ("warning: x".data)
        ("FAIL bad return code \"go run p\": 1".data) := by
  refine ⟨by decide, by decide, by decide⟩

/-- Claim C7: a case that fails a check prints exactly one diagnostic
line, and a passing case prints none. -/
theorem one_diagnostic_per_case (runner : Runner) (fs : FileSystem)
    (cmd0 : List String) (expected : String) (r : Nat)
    (h : (test runner fs cmd0 expected).result = some r) :
    (r = 0 → (test runner fs cmd0 expected).printed.length = 1)
    ∧ (r = 1 → (test runner fs cmd0 expected).printed = []) := by
  cases hc : runner (fullCmd cmd0) with
  | none =>
    rw [test_launch_fail runner fs cmd0 expected hc] at h
    cases h
  | some reply =>
    rw [test_launch_ok runner fs cmd0 expected reply hc] at h ⊢
    by_cases h1 : reply.returncode ≠ 0
    · simp [h1] at h ⊢
      exact fun hr => by omega
    · by_cases h2 : reply.stderr ≠ ""
      · simp [h1, h2] at h ⊢
        exact fun hr => by omega
      · cases hg : fs (goldenPath expected) with
        | none =>
          simp [h1, h2, hg] at h ⊢
          exact fun hr => by omega
        | some content =>
          by_cases h3 : strip reply.stdout ≠ strip content
          · simp [h1, h2, hg, h3] at h ⊢
            exact fun hr => by omega
          · simp [h1, h2, hg, h3] at h ⊢
            exact fun hr => by omega

/-- Witness for C7: a concrete failing case prints one line. -/
theorem one_diagnostic_per_case_witness :
    ((0 : Nat) = 0 →
      (TestOutcome.printed
        (test (fun _ => some ⟨2, "", "x"⟩) (fun _ => some "x") ["p"] "e")).length = 1)
    ∧ ((0 : Nat) = 1 →
      TestOutcome.printed
        (test (fun _ => some ⟨2, "", "x"⟩) (fun _ => some "x") ["p"] "e") = []) :=
  one_diagnostic_per_case (fun _ => some ⟨2, "", "x"⟩) (fun _ => some "x")
    ["p"] "e" 0 (by decide)

/-- Claim C8: `test` lets an error escape exactly when the child process
cannot be launched; in that event the whole run aborts (`runLoop` stops
with the abort flag set, leaving the remaining cases unprocessed), while
every other failure mode yields a locally-handled result. -/
theorem launch_failure_propagates (runner : Runner) (fs : FileSystem)
    (cmd0 : List String) (expected : String)
    (rest : List (List String × String)) (t k : Nat) (outs : List String) :
    ((test runner fs cmd0 expected).result = none ↔
      runner (fullCmd cmd0) = none)
    ∧ ((test runner fs cmd0 expected).result = none →
        runLoop runner fs ((cmd0, expected) :: rest) t k outs =
          (t + 1, k, outs, true)) := by
  have hmain : (test runner fs cmd0 expected).result = none ↔
      runner (fullCmd cmd0) = none := by
    cases hc : runner (fullCmd cmd0) with
    | none =>
      rw [test_launch_fail runner fs cmd0 expected hc]
      simp
    | some reply =>
      rw [test_launch_ok runner fs cmd0 expected reply hc]
      constructor
      · intro h
        by_cases h1 : reply.returncode ≠ 0
        · simp [h1] at h
        · by_cases h2 : reply.stderr ≠ ""
          · simp [h1, h2] at h
          · cases hg : fs (goldenPath expected) with
            | none => simp [h1, h2, hg] at h
            | some content =>
              by_cases h3 : strip reply.stdout ≠ strip content
              · simp [h1, h2, hg, h3] at h
              · simp [h1, h2, hg, h3] at h
      · intro h
        exact absurd h (by simp)
  refine ⟨hmain, fun h => ?_⟩
  have hn : runner (fullCmd cmd0) = none := hmain.mp h
  have heq := test_launch_fail runner fs cmd0 expected hn
  show (match (test runner fs cmd0 expected).result with
    | none => (t + 1, k, outs ++ (test runner fs cmd0 expected).printed, true)
    | some r =>
      runLoop runner fs rest (t + 1) (k + r)
        (outs ++ (test runner fs cmd0 expected).printed)) = _
  rw [heq]
  simp

/-- Witness for C8: a runner that cannot launch anything. -/
theorem launch_failure_propagates_witness :
    ((test (fun _ => none) (fun _ => some "x") ["p"] "e").result = none ↔
      (fun _ => none : Runner) (fullCmd ["p"]) = none)
    ∧ ((test (fun _ => none) (fun _ => some "x") ["p"] "e").result = none →
        runLoop (fun _ => none) (fun _ => some "x") ((["p"], "e") :: [])
          0 0 [] = (0 + 1, 0, [], true)) :=
  launch_failure_propagates (fun _ => none) (fun _ => some "x") ["p"] "e"
    [] 0 0 []

/-- Claim C9 (amended): every invocation of `test` passes exactly one
command to the process spawner; it opens at most one file, and exactly
one — the golden file — when the exit code is 0 and stderr is empty; and
it prints exactly one diagnostic line on every locally-handled failure
path. -/
theorem test_effect_frame (runner : Runner) (fs : FileSystem)
    (cmd0 : List String) (expected : String) :
    (test runner fs cmd0 expected).spawnCalls = [fullCmd cmd0]
    ∧ (test runner fs cmd0 expected).fileReads.length ≤ 1
    ∧ (∀ reply, runner (fullCmd cmd0) = some reply →
        reply.returncode = 0 → reply.stderr = "" →
        (test runner fs cmd0 expected).fileReads = [goldenPath expected])
    ∧ ((test runner fs cmd0 expected).result = some 0 →
        (test runner fs cmd0 expected).printed.length = 1) := by
  cases hc : runner (fullCmd cmd0) with
  | none =>
    rw [test_launch_fail runner fs cmd0 expected hc]
    exact ⟨rfl, by simp, fun reply hr => Option.noConfusion hr, by simp⟩
  | some reply =>
    rw [test_launch_ok runner fs cmd0 expected reply hc]
    by_cases h1 : reply.returncode ≠ 0
    · refine ⟨by simp [h1], by simp [h1], fun reply' hr h0 he => ?_,
        by simp [h1]⟩
      cases hr
      exact absurd h0 h1
    · by_cases h2 : reply.stderr ≠ ""
      · refine ⟨by simp [h1, h2], by simp [h1, h2],
          fun reply' hr h0 he => ?_, by simp [h1, h2]⟩
        cases hr
        exact absurd he h2
      · cases hg : fs (goldenPath expected) with
        | none =>
          exact ⟨by simp [h1, h2], by simp [h1, h2],
            fun reply' hr h0 he => by simp [h1, h2], by simp [h1, h2]⟩
        | some content =>
          by_cases h3 : strip reply.stdout ≠ strip content
          · exact ⟨by simp [h1, h2, h3], by simp [h1, h2, h3],
              fun reply' hr h0 he => by simp [h1, h2, h3],
              by simp [h1, h2, h3]⟩
          · exact ⟨by simp [h1, h2, h3], by simp [h1, h2, h3],
              fun reply' hr h0 he => by simp [h1, h2, h3],
              by simp [h1, h2, h3]⟩

/-- Witness for C9's amended theorem: a passing case reads exactly the
golden file. -/
theorem test_effect_frame_witness :
    TestOutcome.spawnCalls
      (test (fun _ => some ⟨0, "", "x"⟩) (fun _ => some "x") ["p"] "e") =
      [fullCmd ["p"]]
    ∧ (TestOutcome.fileReads
        (test (fun _ => some ⟨0, "", "x"⟩) (fun _ => some "x") ["p"] "e")).length ≤ 1
    ∧ (∀ reply, (fun _ => some ⟨0, "", "x"⟩ : Runner) (fullCmd ["p"]) =
          some reply →
        reply.returncode = 0 → reply.stderr = "" →
        TestOutcome.fileReads
          (test (fun _ => some ⟨0, "", "x"⟩) (fun _ => some "x") ["p"] "e") =
          [goldenPath "e"])
    ∧ (TestOutcome.result
        (test (fun _ => some ⟨0, "", "x"⟩) (fun _ => some "x") ["p"] "e") =
          some 0 →
        (TestOutcome.printed
          (test (fun _ => some ⟨0, "", "x"⟩) (fun _ => some "x") ["p"] "e")).length = 1) :=
  test_effect_frame (fun _ => some ⟨0, "", "x"⟩) (fun _ => some "x") ["p"] "e"

/-- Counterexample for C9 as stated: a case that fails the return-code
check spawns its one process but reads no file at all, so `test` does
not read exactly one file on every invocation. -/
theorem test_effect_frame_counterexample :
    (TestOutcome.spawnCalls
      (test (fun _ => some ⟨1, "", "x"⟩) (fun _ => some "y") ["p"] "e")).length = 1
    ∧ (TestOutcome.fileReads
      (test (fun _ => some ⟨1, "", "x"⟩) (fun _ => some "y") ["p"] "e")).length = 0 := by
  refine ⟨by decide, by decide⟩

/-- Claim C4: adding or removing leading/trailing whitespace on the
child's stdout or on the golden file's content never changes the outcome
of the comparison step, and in particular stdout `hello\n` against
golden content `hello` passes. -/
theorem comparison_whitespace_insensitive (cmd0 : List String)
    (expected s g w1 w2 w3 w4 : String)
    (h1 : ∀ c ∈ w1.data, Char.isWhitespace c)
    (h2 : ∀ c ∈ w2.data, Char.isWhitespace c)
    (h3 : ∀ c ∈ w3.data, Char.isWhitespace c)
    (h4 : ∀ c ∈ w4.data, Char.isWhitespace c) :
    (test (fun _ => some ⟨0, "", w1 ++ s ++ w2⟩)
        (fun _ => some (w3 ++ g ++ w4)) cmd0 expected).result =
      (test (fun _ => some ⟨0, "", s⟩) (fun _ => some g) cmd0 expected).result
    ∧ (test (fun _ => some ⟨0, "", "hello\n"⟩) (fun _ => some "hello")
        cmd0 expected).result = some 1 := by
  constructor
  · rw [test_launch_ok (fun _ => some ⟨0, "", w1 ++ s ++ w2⟩)
        (fun _ => some (w3 ++ g ++ w4)) cmd0 expected ⟨0, "", w1 ++ s ++ w2⟩
        rfl,
      test_launch_ok (fun _ => some ⟨0, "", s⟩) (fun _ => some g) cmd0
        expected ⟨0, "", s⟩ rfl]
    have e1 : strip (w1 ++ s ++ w2) = strip s := strip_pad s w1 w2 h1 h2
    have e2 : strip (w3 ++ g ++ w4) = strip g := strip_pad g w3 w4 h3 h4
    simp [e1, e2]
  · rw [test_pass_of (fun _ => some ⟨0, "", "hello\n"⟩)
      (fun _ => some "hello") cmd0 expected ⟨0, "", "hello\n"⟩ "hello"
      rfl rfl rfl rfl (by decide)]

/-- Witness for C4 at concrete padding: stdout padded with a leading
space and a trailing newline, golden content padded with two trailing
spaces. -/
theorem comparison_whitespace_insensitive_witness :
    (test (fun _ => some ⟨0, "", " " ++ "a" ++ "\n"⟩)
        (fun _ => some ("" ++ "a" ++ "  ")) ["p"] "e").result =
      (test (fun _ => some ⟨0, "", "a"⟩) (fun _ => some "a") ["p"] "e").result
    ∧ (test (fun _ => some ⟨0, "", "hello\n"⟩) (fun _ => some "hello")
        ["p"] "e").result = some 1 :=
  comparison_whitespace_insensitive ["p"] "e" "a" "a" " " "\n" "" "  "
    (by decide) (by decide) (by decide) (by decide)

/-- A passing case prints nothing. -/
theorem test_pass_printed (runner : Runner) (fs : FileSystem)
    (cmd0 : List String) (expected : String)
    (h : (test runner fs cmd0 expected).result = some 1) :
    (test runner fs cmd0 expected).printed = [] := by
  cases hc : runner (fullCmd cmd0) with
  | none =>
    rw [test_launch_fail runner fs cmd0 expected hc] at h
    cases h
  | some reply =>
    rw [test_launch_ok runner fs cmd0 expected reply hc] at h ⊢
    by_cases h1 : reply.returncode ≠ 0
    · simp [h1] at h
    · by_cases h2 : reply.stderr ≠ ""
      · simp [h1, h2] at h
      · cases hg : fs (goldenPath expected) with
        | none => simp [h1, h2, hg] at h
        | some content =>
          by_cases h3 : strip reply.stdout ≠ strip content
          · simp [h1, h2, hg, h3] at h
          · simp [h1, h2, hg, h3]

/-- Completed loops count one `total` increment per case. -/
theorem runLoop_total (runner : Runner) (fs : FileSystem) :
    ∀ (cs : List (List String × String)) (t k : Nat) (outs : List String),
      (runLoop runner fs cs t k outs).2.2.2 = false →
      (runLoop runner fs cs t k outs).1 = t + cs.length := by
  intro cs
  induction cs with
  | nil => intro t k outs _; rfl
  | cons p rest ih =>
    intro t k outs hb
    obtain ⟨cmd, expected⟩ := p
    simp only [runLoop] at hb ⊢
    cases hres : (test runner fs cmd expected).result with
    | none =>
      rw [hres] at hb
      exact Bool.noConfusion hb
    | some r =>
      rw [hres] at hb
      show (runLoop runner fs rest (t + 1) (k + r)
        (outs ++ (test runner fs cmd expected).printed)).1 =
        t + ((cmd, expected) :: rest).length
      rw [ih (t + 1) (k + r) (outs ++ (test runner fs cmd expected).printed) hb]
      simp only [List.length_cons]
      omega

/-- The `ok` counter never exceeds `total` (preserved by every
iteration). -/
theorem runLoop_ok_le (runner : Runner) (fs : FileSystem) :
    ∀ (cs : List (List String × String)) (t k : Nat) (outs : List String),
      k ≤ t →
      (runLoop runner fs cs t k outs).2.1 ≤ (runLoop runner fs cs t k outs).1 := by
  intro cs
  induction cs with
  | nil => intro t k outs hk; exact hk
  | cons p rest ih =>
    intro t k outs hk
    obtain ⟨cmd, expected⟩ := p
    simp only [runLoop]
    cases hres : (test runner fs cmd expected).result with
    | none => exact Nat.le_succ_of_le hk
    | some r =>
      rcases test_result_zero_or_one runner fs cmd expected r hres with rfl | rfl
      · exact ih (t + 1) (k + 0) _ (by omega)
      · exact ih (t + 1) (k + 1) _ (by omega)

/-- Strict inequality of the counters is preserved by the loop. -/
theorem runLoop_ok_lt (runner : Runner) (fs : FileSystem) :
    ∀ (cs : List (List String × String)) (t k : Nat) (outs : List String),
      k < t →
      (runLoop runner fs cs t k outs).2.1 < (runLoop runner fs cs t k outs).1 := by
  intro cs
  induction cs with
  | nil => intro t k outs hk; exact hk
  | cons p rest ih =>
    intro t k outs hk
    obtain ⟨cmd, expected⟩ := p
    simp only [runLoop]
    cases hres : (test runner fs cmd expected).result with
    | none => exact Nat.lt_succ_of_lt hk
    | some r =>
      rcases test_result_zero_or_one runner fs cmd expected r hres with rfl | rfl
      · exact ih (t + 1) (k + 0) _ (by omega)
      · exact ih (t + 1) (k + 1) _ (by omega)

/-- When every case passes, the loop counts every case into both
counters and prints nothing. -/
theorem runLoop_all_pass (runner : Runner) (fs : FileSystem) :
    ∀ (cs : List (List String × String)) (t k : Nat) (outs : List String),
      (∀ p ∈ cs, (test runner fs p.1 p.2).result = some 1) →
      runLoop runner fs cs t k outs =
        (t + cs.length, k + cs.length, outs, false) := by
  intro cs
  induction cs with
  | nil => intro t k outs _; rfl
  | cons p rest ih =>
    intro t k outs hp
    obtain ⟨cmd, expected⟩ := p
    have h1 : (test runner fs cmd expected).result = some 1 :=
      hp (cmd, expected) (List.mem_cons_self _ _)
    have hpr : (test runner fs cmd expected).printed = [] :=
      test_pass_printed runner fs cmd expected h1
    simp only [runLoop]
    rw [h1, hpr]
    show runLoop runner fs rest (t + 1) (k + 1) (outs ++ []) = _
    rw [ih (t + 1) (k + 1) (outs ++ []) fun p hp' =>
      hp p (List.mem_cons_of_mem _ hp')]
    have e1 : t + 1 + rest.length = t + (rest.length + 1) := by omega
    have e2 : k + 1 + rest.length = k + (rest.length + 1) := by omega
    rw [List.append_nil, e1, e2, List.length_cons]

/-- A completed loop over a list containing a failing case leaves `ok`
strictly below `total`. -/
theorem runLoop_some_fail (runner : Runner) (fs : FileSystem) :
    ∀ (cs : List (List String × String)) (t k : Nat) (outs : List String)
      (p : List String × String), p ∈ cs →
      (test runner fs p.1 p.2).result = some 0 → k ≤ t →
      (runLoop runner fs cs t k outs).2.1 < (runLoop runner fs cs t k outs).1 := by
  intro cs
  induction cs with
  | nil => intro t k outs p hp; cases hp
  | cons q rest ih =>
    intro t k outs p hp hfail hk
    obtain ⟨cmd, expected⟩ := q
    simp only [runLoop]
    rcases List.mem_cons.mp hp with rfl | hmem
    · rw [show (test runner fs cmd expected).result = some 0 from hfail]
      exact runLoop_ok_lt runner fs rest (t + 1) (k + 0) _ (by omega)
    · cases hres : (test runner fs cmd expected).result with
      | none => exact Nat.lt_succ_of_le hk
      | some r =>
        rcases test_result_zero_or_one runner fs cmd expected r hres
          with rfl | rfl
        · exact ih (t + 1) (k + 0) _ p hmem hfail (by omega)
        · exact ih (t + 1) (k + 1) _ p hmem hfail (by omega)

/-- Claim C3: every case adds exactly one to `total` (when the loop
completes), adds the case's 0-or-1 result to `ok`, and consequently
`ok ≤ total` after every iteration and at the end of the run. -/
theorem tally_invariant (runner : Runner) (fs : FileSystem)
    (cs : List (List String × String)) (t k : Nat) (outs : List String)
    (t' k' : Nat) (outs' : List String) (b : Bool)
    (h : runLoop runner fs cs t k outs = (t', k', outs', b)) (hk : k ≤ t) :
    (∀ cmd0 expected r, (test runner fs cmd0 expected).result = some r →
      r = 0 ∨ r = 1)
    ∧ (b = false → t' = t + cs.length)
    ∧ k' ≤ t' := by
  refine ⟨fun cmd0 expected r hr =>
    test_result_zero_or_one runner fs cmd0 expected r hr, fun hb => ?_, ?_⟩
  · have ht := runLoop_total runner fs cs t k outs (by rw [h]; exact hb)
    rw [h] at ht
    exact ht
  · have hle := runLoop_ok_le runner fs cs t k outs hk
    rw [h] at hle
    exact hle

/-- Witness for C3 at a single passing case. -/
theorem tally_invariant_witness :
    (∀ cmd0 expected r,
      (test (fun _ => some ⟨0, "", "x"⟩) (fun _ => some "x")
        cmd0 expected).result = some r → r = 0 ∨ r = 1)
    ∧ (false = false →
        1 = 0 + [((["p"], "e") : List String × String)].length)
    ∧ 1 ≤ 1 :=
  tally_invariant (fun _ => some ⟨0, "", "x"⟩) (fun _ => some "x")
    [(["p"], "e")] 0 0 [] 1 1 [] false (by decide) (by decide)

/-- Unfolding equation for `runAll` when the loop completes. -/
theorem runAll_complete (runner : Runner) (fs : FileSystem)
    (cs : List (List String × String)) (t k : Nat) (outs : List String)
    (h : runLoop runner fs cs 0 0 [] = (t, k, outs, false)) :
    runAll runner fs cs =
      (t, k, outs ++ [if t ≠ k then failSummary k t else okSummary t],
       false) := by
  unfold runAll
  rw [h]

/-- Unfolding equation for `runAll` when a launch failure aborts the
loop. -/
theorem runAll_aborted (runner : Runner) (fs : FileSystem)
    (cs : List (List String × String)) (t k : Nat) (outs : List String)
    (h : runLoop runner fs cs 0 0 [] = (t, k, outs, true)) :
    runAll runner fs cs = (t, k, outs, true) := by
  unfold runAll
  rw [h]

/-- Claim C2: a completed run prints the summary as its final line:
`All {total} OK` exactly when `ok = total` — in particular when every
case's process exits 0 with empty stderr and matching stripped output —
and `FAIL {ok}/{total}` with `ok < total` when some case failed a
check. -/
theorem summary_line_correct (runner : Runner) (fs : FileSystem)
    (cs : List (List String × String)) (total ok : Nat) (outs : List String)
    (h : runAll runner fs cs = (total, ok, outs, false)) :
    outs.getLast? = some (if total ≠ ok then failSummary ok total
                          else okSummary total)
    ∧ ((∀ p ∈ cs, ∃ reply, runner (fullCmd p.1) = some reply ∧
          reply.returncode = 0 ∧ reply.stderr = "" ∧
          ∃ content, fs (goldenPath p.2) = some content ∧
            strip reply.stdout = strip content) →
        total = cs.length ∧ ok = total ∧
        outs.getLast? = some (okSummary cs.length))
    ∧ (∀ p ∈ cs, (test runner fs p.1 p.2).result = some 0 →
        ok < total ∧ outs.getLast? = some (failSummary ok total)) := by
  rcases hloop : runLoop runner fs cs 0 0 [] with ⟨t0, k0, outs0, b0⟩
  cases b0 with
  | true =>
    rw [runAll_aborted runner fs cs t0 k0 outs0 hloop] at h
    simp at h
  | false =>
    rw [runAll_complete runner fs cs t0 k0 outs0 hloop] at h
    simp only [Prod.mk.injEq] at h
    obtain ⟨ht, hk, houts, -⟩ := h
    subst ht
    subst hk
    subst houts
    refine ⟨?_, fun hpass => ?_, fun p hp hfail => ?_⟩
    · rw [List.getLast?_concat]
    · have hall : ∀ p ∈ cs, (test runner fs p.1 p.2).result = some 1 := by
        intro p hp
        obtain ⟨reply, hr, h0, he, content, hg, hs⟩ := hpass p hp
        rw [test_pass_of runner fs p.1 p.2 reply content hr h0 he hg hs]
      have hrun := runLoop_all_pass runner fs cs 0 0 [] hall
      rw [hloop] at hrun
      simp only [Prod.mk.injEq] at hrun
      obtain ⟨ht0, hk0, -, -⟩ := hrun
      have htot : t0 = cs.length := by omega
      have hok : k0 = t0 := by omega
      refine ⟨htot, hok, ?_⟩
      rw [List.getLast?_concat, if_neg (by omega : ¬ t0 ≠ k0), htot]
    · have hlt := runLoop_some_fail runner fs cs 0 0 [] p hp hfail
        (Nat.le_refl 0)
      rw [hloop] at hlt
      have hlt' : k0 < t0 := hlt
      refine ⟨hlt', ?_⟩
      rw [List.getLast?_concat, if_pos (by omega : t0 ≠ k0)]

/-- Witness for C2 at a single passing case against a concrete
environment. -/
theorem summary_line_correct_witness :
    ["All 1 OK"].getLast? = some (if 1 ≠ 1 then failSummary 1 1
                                  else okSummary 1)
    ∧ ((∀ p ∈ [((["p"], "e") : List String × String)], ∃ reply,
          (fun _ => some ⟨0, "", "x"⟩ : Runner) (fullCmd p.1) = some reply ∧
          reply.returncode = 0 ∧ reply.stderr = "" ∧
          ∃ content, (fun _ => some "x" : FileSystem) (goldenPath p.2) =
            some content ∧ strip reply.stdout = strip content) →
        1 = [((["p"], "e") : List String × String)].length ∧ 1 = 1 ∧
        ["All 1 OK"].getLast? =
          some (okSummary [((["p"], "e") : List String × String)].length))
    ∧ (∀ p ∈ [((["p"], "e") : List String × String)],
        (test (fun _ => some ⟨0, "", "x"⟩) (fun _ => some "x")
          p.1 p.2).result = some 0 →
        1 < 1 ∧ ["All 1 OK"].getLast? = some (failSummary 1 1)) :=
  summary_line_correct (fun _ => some ⟨0, "", "x"⟩) (fun _ => some "x")
    [(["p"], "e")] 1 1 ["All 1 OK"] (by decide)

/-- One case's outcome depends only on the runner's answer for its
command and the file system's answer for its golden path. -/
theorem test_env_agree (r1 r2 : Runner) (f1 f2 : FileSystem)
    (cmd0 : List String) (expected : String)
    (hr : r1 (fullCmd cmd0) = r2 (fullCmd cmd0))
    (hf : f1 (goldenPath expected) = f2 (goldenPath expected)) :
    test r1 f1 cmd0 expected = test r2 f2 cmd0 expected := by
  unfold test
  rw [hr, hf]

/-- The loop's outcome depends only on the environment's answers at the
listed cases. -/
theorem runLoop_env_agree (r1 r2 : Runner) (f1 f2 : FileSystem) :
    ∀ (cs : List (List String × String)),
      (∀ p ∈ cs, r1 (fullCmd p.1) = r2 (fullCmd p.1)) →
      (∀ p ∈ cs, f1 (goldenPath p.2) = f2 (goldenPath p.2)) →
      ∀ (t k : Nat) (outs : List String),
        runLoop r1 f1 cs t k outs = runLoop r2 f2 cs t k outs := by
  intro cs
  induction cs with
  | nil => intro _ _ t k outs; rfl
  | cons p rest ih =>
    intro hr hf t k outs
    obtain ⟨cmd, expected⟩ := p
    have ht : test r1 f1 cmd expected = test r2 f2 cmd expected :=
      test_env_agree r1 r2 f1 f2 cmd expected
        (hr (cmd, expected) (List.mem_cons_self _ _))
        (hf (cmd, expected) (List.mem_cons_self _ _))
    simp only [runLoop]
    rw [ht]
    cases hres : (test r2 f2 cmd expected).result with
    | none => rfl
    | some r =>
      exact ih (fun p hp => hr p (List.mem_cons_of_mem _ hp))
        (fun p hp => hf p (List.mem_cons_of_mem _ hp)) (t + 1) (k + r)
        (outs ++ (test r2 f2 cmd expected).printed)

/-- Claim C10: two runs in which every case's child process behaves the
same and the golden files are unchanged produce the same final state and
in particular the same complete printed output — the harness introduces
no nondeterminism of its own. -/
theorem harness_deterministic (r1 r2 : Runner) (f1 f2 : FileSystem)
    (cs : List (List String × String))
    (hr : ∀ p ∈ cs, r1 (fullCmd p.1) = r2 (fullCmd p.1))
    (hf : ∀ p ∈ cs, f1 (goldenPath p.2) = f2 (goldenPath p.2)) :
    runAll r1 f1 cs = runAll r2 f2 cs
    ∧ (runAll r1 f1 cs).2.2.1 = (runAll r2 f2 cs).2.2.1 := by
  have hall : runAll r1 f1 cs = runAll r2 f2 cs := by
    unfold runAll
    rw [runLoop_env_agree r1 r2 f1 f2 cs hr hf 0 0 []]
  exact ⟨hall, by rw [hall]⟩

/-- Witness for C10: two syntactically different environments that agree
on the single case's command and golden path. -/
theorem harness_deterministic_witness :
    runAll (fun _ => some ⟨0, "", "x"⟩)
        (fun f => if f = "other" then none else some "x") [(["p"], "e")] =
      runAll (fun c => if c = [] then none else some ⟨0, "", "x"⟩)
        (fun _ => some "x") [(["p"], "e")]
    ∧ (runAll (fun _ => some ⟨0, "", "x"⟩)
        (fun f => if f = "other" then none else some "x")
        [(["p"], "e")]).2.2.1 =
      (runAll (fun c => if c = [] then none else some ⟨0, "", "x"⟩)
        (fun _ => some "x") [(["p"], "e")]).2.2.1 :=
  harness_deterministic (fun _ => some ⟨0, "", "x"⟩)
    (fun c => if c = [] then none else some ⟨0, "", "x"⟩)
    (fun f => if f = "other" then none else some "x") (fun _ => some "x")
    [(["p"], "e")] (by decide) (by decide)
